import Mathlib

/-!
Verification of the beets-tidal plugin (`beetsplug/tidal.py`) against its
natural-language specification.  The Python source is shallowly embedded:
pure fragments become Lean functions, fallible calls return `Except PyErr`,
the `tidalapi` session object becomes a record of (deterministic) request
functions, and `time.time()` becomes an explicit `now` parameter.
-/

namespace BeetsTidal

/-! ## Python exception values

Every exception we need to distinguish between.  `unboundLocal` models the
`UnboundLocalError` (a subclass of `NameError`) raised by reading a local
variable that was never assigned. -/

inductive PyErr where
  | fileNotFound
  | ioError
  | jsonDecodeError
  | keyError
  | typeError
  | valueError
  | unboundLocal
  | other
  deriving DecidableEq, Repr

/-! ## The query normalizer

`get_albums` / `get_tracks` run the query through two `re.sub` calls:

    query = re.sub(r'(?u)\W+', ' ', query)
    query = re.sub(r'(?i)\b(CD|disc)\s*\d+', '', query)

We embed the *semantics* of those substitutions over `List Char`.  The
Unicode word-character class `\w` is abstracted as a parameter
`w : Char → Bool` (Lean's char predicates are ASCII-centric, the Python
regex is Unicode-aware; every theorem below holds for an arbitrary
word-class predicate).  `\s` is modelled by `Char.isWhitespace` and `\d`
by `Char.isDigit`. -/

theorem dropWhile_length_le (p : α → Bool) (l : List α) :
    (l.dropWhile p).length ≤ l.length := by
  induction l with
  | nil => simp
  | cons a l ih =>
    rw [List.dropWhile_cons]
    split
    · exact Nat.le_succ_of_le ih
    · simp

/-- The scanner of `re.sub(r'(?u)\W+', ' ', s)`, with explicit fuel (one
unit per consumed run) so that it is structurally recursive and reduces in
the kernel; `fuel ≥ length` always suffices. -/
def collapseGo (w : Char → Bool) : Nat → List Char → List Char
  | _, [] => []
  | 0, l => l
  | fuel + 1, c :: rest =>
    if w c then c :: collapseGo w fuel rest
    else ' ' :: collapseGo w fuel (rest.dropWhile (fun x => !(w x)))

/-- `re.sub(r'(?u)\W+', ' ', s)`: each maximal run of non-word characters
is replaced by a single space. -/
def collapseNonWord (w : Char → Bool) (l : List Char) : List Char :=
  collapseGo w l.length l

/-- The `\s*\d+` tail of the medium-marker pattern: greedily skip
whitespace, then require at least one digit and consume the maximal digit
run.  Returns the last consumed character (for subsequent word-boundary
computation) and the remaining input. -/
def afterSpacesDigits (l : List Char) : Option (Char × List Char) :=
  match l.dropWhile Char.isWhitespace with
  | [] => none
  | c :: rest =>
    if c.isDigit then
      some (((c :: rest).takeWhile Char.isDigit).getLastD c,
            rest.dropWhile Char.isDigit)
    else none

/-- Attempt the `CD` alternative of `(?i)(CD|disc)\s*\d+` at the head. -/
def matchCD : List Char → Option (Char × List Char)
  | c :: d :: rest =>
    if c.toLower = 'c' ∧ d.toLower = 'd' then afterSpacesDigits rest
    else none
  | _ => none

/-- Attempt the `disc` alternative of `(?i)(CD|disc)\s*\d+` at the head. -/
def matchDisc : List Char → Option (Char × List Char)
  | a :: b :: c :: d :: rest =>
    if a.toLower = 'd' ∧ b.toLower = 'i' ∧ c.toLower = 's' ∧ d.toLower = 'c' then
      afterSpacesDigits rest
    else none
  | _ => none

/-- Attempt `(?i)(CD|disc)\s*\d+` at the head of the input (the regex
alternation tries `CD` first, then `disc`). -/
def matchToken (l : List Char) : Option (Char × List Char) :=
  match matchCD l with
  | some r => some r
  | none => matchDisc l

theorem afterSpacesDigits_length {l : List Char} {c : Char} {rest : List Char}
    (h : afterSpacesDigits l = some (c, rest)) : rest.length < l.length + 1 := by
  unfold afterSpacesDigits at h
  split at h
  · exact absurd h (by simp)
  · rename_i x xs hd
    split at h
    · simp only [Option.some.injEq, Prod.mk.injEq] at h
      have h1 : xs.length < l.length + 1 := by
        have := dropWhile_length_le (fun x => Char.isWhitespace x) l
        rw [hd] at this
        simp only [List.length_cons] at this
        omega
      have h2 : rest.length ≤ xs.length := by
        rw [← h.2]; exact dropWhile_length_le _ _
      omega
    · exact absurd h (by simp)

theorem matchCD_length {l : List Char} {c : Char} {rest : List Char}
    (h : matchCD l = some (c, rest)) : rest.length < l.length := by
  unfold matchCD at h
  split at h
  · rename_i a b tl
    split at h
    · have := afterSpacesDigits_length h
      simp only [List.length_cons]; omega
    · exact absurd h (by simp)
  · exact absurd h (by simp)

theorem matchDisc_length {l : List Char} {c : Char} {rest : List Char}
    (h : matchDisc l = some (c, rest)) : rest.length < l.length := by
  unfold matchDisc at h
  split at h
  · rename_i a b x d tl
    split at h
    · have := afterSpacesDigits_length h
      simp only [List.length_cons]; omega
    · exact absurd h (by simp)
  · exact absurd h (by simp)

theorem matchToken_length {l : List Char} {c : Char} {rest : List Char}
    (h : matchToken l = some (c, rest)) : rest.length < l.length := by
  unfold matchToken at h
  split at h
  · rename_i r hcd
    cases h
    exact matchCD_length hcd
  · exact matchDisc_length h

/-- The scanner of `re.sub(r'(?i)\b(CD|disc)\s*\d+', '', s)`.
`prevWord` records whether the character before the current position is a
word character (`false` at the start of the string), so the word-boundary
assertion `\b` at the current position is `w c != prevWord` for head
character `c`.  At each position the scanner attempts the (non-empty)
pattern; on success the match is deleted and scanning resumes after it,
otherwise the character is kept.  Explicit fuel (one unit per consumed
character or match) keeps the recursion structural; `fuel ≥ length`
always suffices. -/
def stripGo (w : Char → Bool) : Nat → Bool → List Char → List Char
  | _, _, [] => []
  | 0, _, l => l
  | fuel + 1, prevWord, c :: rest =>
    if w c != prevWord then
      match matchToken (c :: rest) with
      | some (lastc, rest') => stripGo w fuel (w lastc) rest'
      | none => c :: stripGo w fuel (w c) rest
    else c :: stripGo w fuel (w c) rest

/-- `re.sub(r'(?i)\b(CD|disc)\s*\d+', '', s)`. -/
def stripMedium (w : Char → Bool) (l : List Char) : List Char :=
  stripGo w l.length false l

/-- The query normalization performed by `get_albums` (lines 178 and 181
of the source): collapse non-word runs, then delete medium markers. -/
def normalizeAlbumQuery (w : Char → Bool) (q : List Char) : List Char :=
  stripMedium w (collapseNonWord w q)

/-- The query normalization performed by `get_tracks` (lines 202 and 205
of the source, textually identical to the one in `get_albums`). -/
def normalizeTrackQuery (w : Char → Bool) (q : List Char) : List Char :=
  stripMedium w (collapseNonWord w q)

/-- ASCII instantiation of the word-character class, used only to run the
model on concrete inputs. -/
def asciiWord (c : Char) : Bool := c.isAlphanum || c = '_'

/-! ### Declarative specifications of the two substitutions

These relations state, in the spec's own terms, what each `re.sub` does;
the scanners above are proved to satisfy them. -/

/-- Spec relation for `re.sub(r'(?u)\W+', ' ', ·)`: the output is the
input with every *maximal* run of non-word characters replaced by a
single space (maximality: each run is non-empty, consists of non-word
characters, and is followed by a word character or the end). -/
inductive CollapseRel (w : Char → Bool) : List Char → List Char → Prop where
  | nil : CollapseRel w [] []
  | word {c q r} : w c = true → CollapseRel w q r →
      CollapseRel w (c :: q) (c :: r)
  | run {s q r} : s ≠ [] → (∀ c ∈ s, w c = false) →
      (∀ c q2, q = c :: q2 → w c = true) →
      CollapseRel w q r → CollapseRel w (s ++ q) (' ' :: r)

/-- The `(?i)(CD|disc)` alternation: `pre` is a case-insensitive `CD` or
`disc`. -/
def IsPre (pre : List Char) : Prop :=
  (∃ c d, pre = [c, d] ∧ c.toLower = 'c' ∧ d.toLower = 'd') ∨
  (∃ a b c d, pre = [a, b, c, d] ∧ a.toLower = 'd' ∧ b.toLower = 'i' ∧
    c.toLower = 's' ∧ d.toLower = 'c')

/-- `s` is text matched by `(?i)(CD|disc)\s*\d+`: the alternation, then
optional whitespace, then at least one digit. -/
def IsTok (s : List Char) : Prop :=
  ∃ pre sp ds, s = pre ++ sp ++ ds ∧ IsPre pre ∧
    (∀ c ∈ sp, c.isWhitespace = true) ∧ ds ≠ [] ∧ ∀ c ∈ ds, c.isDigit = true

/-- A match of the medium-marker pattern at the head of `l`, leaving
`rest`; the digit run is maximal (`\d+` is greedy). -/
def TokAt (l s rest : List Char) : Prop :=
  l = s ++ rest ∧ IsTok s ∧ ∀ d r2, rest = d :: r2 → d.isDigit = false

/-- The pattern, word boundary included, matches at the current position
(`b` records whether the previous character is a word character). -/
def MatchesHere (w : Char → Bool) (b : Bool) (l : List Char) : Prop :=
  (∃ c t, l = c :: t ∧ (w c != b) = true) ∧ ∃ s rest, TokAt l s rest

/-- Spec relation for `re.sub(r'(?i)\b(CD|disc)\s*\d+', '', ·)`: scanning
left to right, every token of the form `CD`/`disc` (case-insensitive) at
a word boundary followed by optional whitespace and digits is deleted,
and every position where no such token starts is kept verbatim. -/
inductive StripRel (w : Char → Bool) : Bool → List Char → List Char → Prop where
  | nil (b) : StripRel w b [] []
  | keep {b c q r} : ¬ MatchesHere w b (c :: q) → StripRel w (w c) q r →
      StripRel w b (c :: q) (c :: r)
  | del {b l s rest r} : (∃ c t, l = c :: t ∧ (w c != b) = true) →
      TokAt l s rest → StripRel w (w (s.getLastD ' ')) rest r →
      StripRel w b l r

/-! ## Session persistence (`load_session` / `save_session` / `__init__`)

The session file holds flat JSON.  JSON leaf values are modelled by
`JVal`; a parsed JSON object is an association list.  Python `datetime`
objects are identified with their POSIX timestamp, modelled exactly as a
rational number (`datetime.timestamp` / `datetime.fromtimestamp` are then
mutually inverse; the float rounding and local-timezone aspects of the
real functions are abstracted away). -/

inductive JVal where
  | str (s : String)
  | num (q : ℚ)
  deriving DecidableEq, Repr

/-- Model of `datetime`: identified with its POSIX timestamp. -/
def Datetime := ℚ
deriving DecidableEq, Repr

/-- `datetime.timestamp()`. -/
def Datetime.timestamp (d : Datetime) : ℚ := d

/-- `datetime.fromtimestamp()`. -/
def Datetime.fromtimestamp (q : ℚ) : Datetime := q

/-- The token state of a `tidalapi.Session` after a successful
`load_oauth_session` or OAuth login: exactly the four values that
`save_session` persists. -/
structure OAuthSession where
  token_type : JVal
  access_token : JVal
  refresh_token : JVal
  expiry_time : Datetime
  deriving DecidableEq, Repr

/-- What `open` + `json.load` can yield for the session file: the file is
absent (`FileNotFoundError`), reading or decoding it raises some other
exception (`PermissionError`, `json.JSONDecodeError`, ...), or it parses
to a JSON object. -/
inductive SessionFile where
  | absent
  | unreadable
  | corruptJson
  | parsed (j : List (String × JVal))
  deriving DecidableEq, Repr

/-- `data["k"]`: dictionary lookup, `KeyError` when the key is missing. -/
def jsonGet (j : List (String × JVal)) (k : String) : Except PyErr JVal :=
  match j.lookup k with
  | some v => .ok v
  | none => .error .keyError

/-- `datetime.fromtimestamp(v)` applied to a JSON value: `TypeError`
unless the value is a number. -/
def fromtimestampJ (v : JVal) : Except PyErr Datetime :=
  match v with
  | .num q => .ok (Datetime.fromtimestamp q)
  | .str _ => .error .typeError

/-- The four argument values `load_session` reads out of the parsed JSON,
in the source's evaluation order
(`data["token_type"], data["access_token"], data["refresh_token"],
datetime.fromtimestamp(data["expiry_time"])`). -/
def parseTokens (j : List (String × JVal)) :
    Except PyErr (JVal × JVal × JVal × Datetime) := do
  let tt ← jsonGet j "token_type"
  let at_ ← jsonGet j "access_token"
  let rt ← jsonGet j "refresh_token"
  let etv ← jsonGet j "expiry_time"
  let et ← fromtimestampJ etv
  return (tt, at_, rt, et)

/-- `TidalPlugin.load_session`.  `accept` models the vendor call
`Session.load_oauth_session(...)`, which returns a truthy value exactly
when it accepts the tokens; on acceptance the session holds those tokens.
Only `FileNotFoundError` is caught: every other exception (unreadable
file, corrupted JSON, missing key, bad expiry value) propagates. -/
def load_session (accept : JVal → JVal → JVal → Datetime → Bool) :
    SessionFile → Except PyErr (Option OAuthSession)
  | .absent => .ok none
  | .unreadable => .error .ioError
  | .corruptJson => .error .jsonDecodeError
  | .parsed j =>
    match parseTokens j with
    | .error e => .error e
    | .ok (tt, at_, rt, et) =>
      if accept tt at_ rt et then .ok (some ⟨tt, at_, rt, et⟩) else .ok none

/-- `TidalPlugin.save_session`: the flat JSON object written to the
session file, with `expiry_time` stored as `self.session.expiry_time.timestamp()`. -/
def save_session (s : OAuthSession) : List (String × JVal) :=
  [("token_type", s.token_type),
   ("access_token", s.access_token),
   ("refresh_token", s.refresh_token),
   ("expiry_time", .num s.expiry_time.timestamp)]

/-- The session-handling part of `TidalPlugin.__init__`: load the session
file; if (and only if) `load_session` returned `None`, perform the
interactive OAuth login (whose result is the `login` parameter) and save
the resulting session.  The second component records the JSON written back
to the session file, if any.  An exception escaping `load_session`
propagates out of `__init__`. -/
def initSession (accept : JVal → JVal → JVal → Datetime → Bool)
    (login : OAuthSession) (f : SessionFile) :
    Except PyErr (OAuthSession × Option (List (String × JVal))) :=
  match load_session accept f with
  | .error e => .error e
  | .ok (some s) => .ok (s, none)
  | .ok none => .ok (login, some (save_session login))

/-! ## Vendor objects and the session request interface

`tidalapi` response objects are modelled as records of the attributes the
plugin reads.  The session's network calls are deterministic functions
returning `Except PyErr`. -/

/-- `item.release_date` (a `datetime`) as read by `get_album_info`: only
its `year` / `month` / `day` components matter. -/
structure ReleaseDate where
  year : Nat
  month : Nat
  day : Nat
  deriving DecidableEq, Repr

/-- A `tidalapi` track object, with the attributes `_get_track` and
`track_popularity` read.  `duration` is in seconds; `0` models a falsy
duration. -/
structure Track where
  id : Nat
  name : String
  artistName : String
  artistId : Nat
  albumName : String
  duration : Nat
  isrc : String
  popularity : Int
  deriving DecidableEq, Repr

/-- A `tidalapi` album object, with the attributes `get_album_info`
reads.  `isrc` is `none` when the object has no `isrc` attribute
(`hasattr` check in the source).  `tracksResult` models the follow-up
request `.tracks()` made on the album object returned by
`self.session.album(tidal_album_id)`. -/
structure AlbumObj where
  id : Nat
  name : String
  artistId : Nat
  artistName : String
  year : Nat
  popularity : Int
  explicit : Bool
  isrc : Option String
  copyright : String
  image1280 : String
  release_date : Option ReleaseDate
  tracksResult : Except PyErr (List Track)
  deriving Repr

/-- The dictionary returned by `session.search(...)`: we carry only the
id of `data.get('top_hit')`, which is all the plugin uses (`none` models
an absent or `None` top hit). -/
structure SearchResult where
  top_hit : Option Nat
  deriving DecidableEq, Repr

/-- The argument actually passed to `session.track(...)`.  `builtinId`
models the Python builtin function `id` — which is what
`track_popularity` passes (`self.session.track(id)`), its `track_id`
parameter notwithstanding. -/
inductive TrackArg where
  | byId (n : Nat)
  | builtinId
  deriving DecidableEq, Repr

/-- The `tidalapi.Session` request interface used by the plugin, plus the
image fetch performed by `is_valid_image_url`
(`requests.get` + `Image.open`, modelled as one fallible call). -/
structure PySession where
  searchAlbums : List Char → Except PyErr SearchResult
  searchTracks : List Char → Except PyErr SearchResult
  album : Nat → Except PyErr AlbumObj
  track : TrackArg → Except PyErr Track
  fetchImage : String → Except PyErr Unit

/-! ## Host data shapes (`beets.autotag.hooks`)

Only the fields the plugin sets (plus the `index`/`medium`/`medium_total`
fields `get_album_info` mutates, which default to `None` in beets) are
modelled.  `_get_track` never sets `medium`, so it stays `none`. -/

structure TrackInfo where
  title : String
  track_id : Nat
  tidal_track_id : Nat
  artist : String
  album : String
  tidal_artist_id : Nat
  length : Option Nat
  data_source : String
  isrc : String
  tidal_track_popularity : Int
  tidal_updated : ℚ
  index : Option Nat
  medium : Option Nat
  medium_total : Option Nat
  deriving DecidableEq, Repr

structure AlbumInfo where
  album : String
  album_id : Nat
  tidal_album_id : Nat
  artist : String
  artist_id : Nat
  tidal_artist_id : Nat
  tidal_alb_popularity : Int
  explicit : Bool
  isrc : Option String
  tracks : List TrackInfo
  year : Option Nat
  month : Option Nat
  day : Option Nat
  mediums : Option Nat
  data_source : String
  cover_art_url : Option String
  label : String
  tidal_updated : ℚ
  deriving DecidableEq, Repr

/-- `s.replace("&quot;", '"')` on the character list: Python
`str.replace` substitutes every (leftmost, non-overlapping) occurrence.
(Lean's own `String.replace` is not kernel-reducible, so the plugin's one
concrete replacement is embedded directly.) -/
def replaceQuotGo : List Char → List Char
  | '&' :: 'q' :: 'u' :: 'o' :: 't' :: ';' :: rest => '"' :: replaceQuotGo rest
  | c :: rest => c :: replaceQuotGo rest
  | [] => []

/-- `s.replace("&quot;", '"')`. -/
def replaceQuot (s : String) : String :=
  String.mk (replaceQuotGo s.toList)

/-- `TidalPlugin.is_valid_image_url`: true iff fetching and decoding the
image raises no exception. -/
def is_valid_image_url (sess : PySession) (url : String) : Bool :=
  match sess.fetchImage url with
  | .ok _ => true
  | .error _ => false

/-- `TidalPlugin._get_track`: convert a Tidal song object to a
`TrackInfo`.  `time.time()` is the explicit `now` parameter. -/
def _get_track (now : ℚ) (t : Track) : TrackInfo :=
  { title := replaceQuot t.name
    track_id := t.id
    tidal_track_id := t.id
    artist := t.artistName
    album := replaceQuot t.albumName
    tidal_artist_id := t.artistId
    length := if t.duration ≠ 0 then some t.duration else none
    data_source := "Tidal"
    isrc := t.isrc
    tidal_track_popularity := t.popularity
    tidal_updated := now
    index := none
    medium := none
    medium_total := none }

/-- Python `max` over a list of optional naturals (the keys of
`medium_totals`): `ValueError` on an empty list; comparing `None` with
anything (including `None`) is a `TypeError`. -/
def pyMaxOpt : List (Option Nat) → Except PyErr (Option Nat)
  | [] => .error .valueError
  | x :: xs =>
    xs.foldlM
      (fun acc y =>
        match acc, y with
        | some a, some b => .ok (some (Nat.max a b))
        | _, _ => .error .typeError)
      x

/-- The keys of a Python `dict` built by repeated `d[k] += 1`, in first
insertion order. -/
def dictKeys (l : List (Option Nat)) : List (Option Nat) :=
  l.foldl (fun acc m => if m ∈ acc then acc else acc ++ [m]) []

/-- The `for i, song in enumerate(all_tracks, start=1)` loop of
`get_album_info`: convert each song and set its 1-based `index`. -/
def albumTracks1 (now : ℚ) (all_tracks : List Track) : List TrackInfo :=
  (all_tracks.map (_get_track now)).enum.map
    (fun p => { p.2 with index := some (p.1 + 1) })

/-- `medium_totals[m]`: the `defaultdict(int)` count of tracks whose
`medium` is `m` after the enumerate loop. -/
def mediumTotalOf (tracks1 : List TrackInfo) (m : Option Nat) : Nat :=
  (tracks1.filter (fun t => t.medium = m)).length

/-- The second `for track in tracks` loop of `get_album_info`: set each
track's `medium_total` from `medium_totals`. -/
def albumTracksFinal (now : ℚ) (all_tracks : List Track) : List TrackInfo :=
  (albumTracks1 now all_tracks).map
    (fun t => { t with
                medium_total := some (mediumTotalOf (albumTracks1 now all_tracks) t.medium) })

/-- `TidalPlugin.get_album_info`: convert a Tidal album object to an
`AlbumInfo`.  The track listing is re-fetched through the session
(`self.session.album(tidal_album_id).tracks()`); tracks are numbered from
1 by the `enumerate(all_tracks, start=1)` loop, `medium_totals` is the
per-medium count, and `mediums` is `max(medium_totals.keys())`. -/
def get_album_info (now : ℚ) (sess : PySession) (item : AlbumObj) :
    Except PyErr AlbumInfo := do
  let album := replaceQuot item.name
  let tidal_album_id := item.id
  let artist_id := item.artistId
  let popularity := item.popularity
  let explicit := item.explicit
  let isrc := item.isrc
  let label := item.copyright
  let url := item.image1280
  let cover_art_url := if is_valid_image_url sess url then some url else none
  let ymd : Option Nat × Option Nat × Option Nat :=
    match item.release_date with
    | some releasedate =>
      (some releasedate.year, some releasedate.month, some releasedate.day)
    | none => (none, none, none)
  let artists := item.artistName
  let a2 ← sess.album tidal_album_id
  let all_tracks ← a2.tracksResult
  let tracks := albumTracksFinal now all_tracks
  let mediums ← pyMaxOpt (dictKeys
    ((albumTracks1 now all_tracks).map (fun t => t.medium)))
  return { album := album
           album_id := tidal_album_id
           tidal_album_id := tidal_album_id
           artist := artists
           artist_id := artist_id
           tidal_artist_id := artist_id
           tidal_alb_popularity := popularity
           explicit := explicit
           isrc := isrc
           tracks := tracks
           year := ymd.1
           month := ymd.2.1
           day := ymd.2.2
           mediums := mediums
           data_source := "Tidal"
           cover_art_url := cover_art_url
           label := label
           tidal_updated := now }

/-- `TidalPlugin.get_albums`.  The two `re.sub` normalizations run first;
`session.search` is wrapped in a `try` whose handler only logs, so when
the search raises, the following `data.get('top_hit')` reads the
never-assigned local `data` and the function raises `UnboundLocalError`
instead of returning. -/
def get_albums (now : ℚ) (w : Char → Bool) (sess : PySession)
    (query : List Char) : Except PyErr (List AlbumInfo) :=
  let q := normalizeAlbumQuery w query
  match sess.searchAlbums q with
  | .error _ => .error .unboundLocal
  | .ok data =>
    match data.top_hit with
    | none => .ok []
    | some hitId => do
      let album_details ← sess.album hitId
      let album_info ← get_album_info now sess album_details
      return [album_info]

/-- `TidalPlugin.get_tracks`, with the same structure (and the same
unbound-`data` behaviour) as `get_albums`. -/
def get_tracks (now : ℚ) (w : Char → Bool) (sess : PySession)
    (query : List Char) : Except PyErr (List TrackInfo) :=
  let q := normalizeTrackQuery w query
  match sess.searchTracks q with
  | .error _ => .error .unboundLocal
  | .ok data =>
    match data.top_hit with
    | none => .ok []
    | some hitId => do
      let song_details ← sess.track (.byId hitId)
      let song_info := _get_track now song_details
      return [song_info]

/-- `TidalPlugin.candidates`: build the query from release/artist and
swallow every exception from `get_albums` into `[]`. -/
def candidates (now : ℚ) (w : Char → Bool) (sess : PySession)
    (artist release : List Char) (va_likely : Bool) : List AlbumInfo :=
  let query := if va_likely then release else release ++ ' ' :: artist
  match get_albums now w sess query with
  | .ok l => l
  | .error _ => []

/-- `TidalPlugin.item_candidates`: build the query from title/artist and
swallow every exception from `get_tracks` into `[]`. -/
def item_candidates (now : ℚ) (w : Char → Bool) (sess : PySession)
    (artist title : List Char) : List TrackInfo :=
  let query := title ++ ' ' :: artist
  match get_tracks now w sess query with
  | .ok l => l
  | .error _ => []

/-- `TidalPlugin.track_popularity`.  The source passes the Python builtin
function `id` to `self.session.track` (`self.session.track(id)`): the
`track_id` parameter is never used in the call.  Any exception yields
`None`. -/
def track_popularity (sess : PySession) (track_id : Nat) : Option Int :=
  match sess.track .builtinId with
  | .error _ => none
  | .ok track_data => some track_data.popularity

/-! ## The `tidalsync` command -/

/-- A beets library item, restricted to the fields `tidalsync` touches.
For `tidal_track_popularity` and `spotify_updated` the outer `Option` is
field presence (`'k' in item`) and the inner value is the stored one
(which for popularity may itself be Python `None`).  `tidal_track_id` is
`none` when the attribute is missing (`AttributeError`).  `rest` stands
for all remaining fields. -/
structure Item where
  tidal_track_popularity : Option (Option Int)
  tidal_track_id : Option Nat
  spotify_updated : Option ℚ
  tidal_updated : Option ℚ
  rest : List (String × String)
  deriving DecidableEq, Repr

/-- `TidalPlugin.tidalsync`.  Per item the result records the (possibly
updated) item, whether `item.store()` ran, and whether `item.try_write()`
ran.  Without `force`, items whose popularity field is present are
skipped; items without a `tidal_track_id` attribute are skipped; updated
items get `tidal_track_popularity` set to the fetched value and
`spotify_updated` (sic — not `tidal_updated`) set to `time.time()`. -/
def tidalsync (sess : PySession) (now : ℚ) (items : List Item)
    (write force : Bool) : List (Item × Bool × Bool) :=
  items.map fun item =>
    if !force && item.tidal_track_popularity.isSome then (item, false, false)
    else
      match item.tidal_track_id with
      | none => (item, false, false)
      | some tid =>
        let popularity := track_popularity sess tid
        let item' := { item with
                       tidal_track_popularity := some popularity
                       spotify_updated := some now }
        (item', true, write)

/-! ## Concrete fixtures (used by witness theorems) -/

def acceptAll : JVal → JVal → JVal → Datetime → Bool := fun _ _ _ _ => true

def sess0 : OAuthSession :=
  ⟨.str "Bearer", .str "access", .str "refresh", (1700000000 : ℚ)⟩

def login0 : OAuthSession :=
  ⟨.str "Bearer", .str "access2", .str "refresh2", (1800000000 : ℚ)⟩

def track80 : Track :=
  ⟨12345, "Song", "Artist", 7, "An Album", 200, "ISRCAAA", 80⟩

def track81 : Track :=
  ⟨12346, "Song&quot;2&quot;", "Artist", 7, "An Album", 0, "ISRCBBB", 70⟩

def rd0 : ReleaseDate := ⟨2020, 5, 17⟩

def albumObj0 : AlbumObj :=
  { id := 55
    name := "An Album"
    artistId := 7
    artistName := "Artist"
    year := 2019
    popularity := 64
    explicit := false
    isrc := some "ISRCCCC"
    copyright := "A Label"
    image1280 := "https://resources.tidal.com/img"
    release_date := some rd0
    tracksResult := .ok [track80, track81] }

def albumObjEmpty : AlbumObj := { albumObj0 with tracksResult := .ok [] }

/-- A session on which every request fails (and the only stored track,
12345, is reachable only through a genuine by-id lookup). -/
def sessFail : PySession :=
  { searchAlbums := fun _ => .error .other
    searchTracks := fun _ => .error .other
    album := fun _ => .error .other
    track := fun a =>
      match a with
      | .byId 12345 => .ok track80
      | _ => .error .other
    fetchImage := fun _ => .error .other }

/-- A session on which the required requests succeed. -/
def sessOk : PySession :=
  { searchAlbums := fun _ => .ok ⟨some 55⟩
    searchTracks := fun _ => .ok ⟨some 12345⟩
    album := fun n => if n = 55 then .ok albumObj0 else .error .other
    track := fun a =>
      match a with
      | .byId 12345 => .ok track80
      | _ => .error .other
    fetchImage := fun _ => .ok () }

/-- `sessOk` with an album whose track listing is empty. -/
def sessEmpty : PySession :=
  { sessOk with album := fun _ => .ok albumObjEmpty }

/-- The `AlbumInfo` that `get_album_info 0 sessOk albumObj0` produces. -/
def info0 : AlbumInfo :=
  { album := "An Album"
    album_id := 55
    tidal_album_id := 55
    artist := "Artist"
    artist_id := 7
    tidal_artist_id := 7
    tidal_alb_popularity := 64
    explicit := false
    isrc := some "ISRCCCC"
    tracks := albumTracksFinal 0 [track80, track81]
    year := some 2020
    month := some 5
    day := some 17
    mediums := none
    data_source := "Tidal"
    cover_art_url := some "https://resources.tidal.com/img"
    label := "A Label"
    tidal_updated := 0 }

/-- A search stub that answers every query. -/
def fConst : List Char → Except PyErr SearchResult := fun _ => .ok ⟨none⟩

/-- A search stub that answers only the normalized form of
`"Greatest Hits CD1"`. -/
def gIf : List Char → Except PyErr SearchResult := fun l =>
  if l = normalizeAlbumQuery asciiWord "Greatest Hits CD1".toList
  then .ok ⟨none⟩ else .error .other

def itemDone : Item := ⟨some (some 50), some 111, none, none, [("title", "x")]⟩

def itemNoId : Item := ⟨none, none, none, some 3, []⟩

def itemTodo : Item := ⟨none, some 12345, none, some 3, [("title", "y")]⟩

end BeetsTidal

namespace BeetsTidal

/-! ## Claim theorems -/

/-- C1, counterexample: contrary to the claim, a session file holding
corrupted JSON does not make `load_session` return `None` (with an OAuth
fallback in `__init__`): only `FileNotFoundError` is caught, so the JSON
decode error escapes `load_session` and propagates out of plugin
construction. -/
theorem claim_C1_counterexample :
    load_session acceptAll .corruptJson = .error .jsonDecodeError ∧
    load_session acceptAll .corruptJson ≠ .ok none ∧
    initSession acceptAll login0 .corruptJson = .error .jsonDecodeError := by
  refine ⟨rfl, ?_, rfl⟩
  intro h
  exact Except.noConfusion h

/-- C1, amended: `load_session` returns `None` exactly when the session
file is absent or it parses to the four token values and the vendor's
`load_oauth_session` rejects them (returns falsy); plugin construction
performs the interactive OAuth login and persists the resulting token set
exactly in those cases.  A loaded session is handed back with nothing
written, and every other exception (unreadable file, corrupted JSON,
missing key, non-numeric expiry) propagates out of construction with no
OAuth fallback. -/
theorem claim_C1 (accept : JVal → JVal → JVal → Datetime → Bool)
    (login : OAuthSession) (f : SessionFile) :
    (load_session accept f = .ok none ↔
      f = .absent ∨ ∃ j t, f = .parsed j ∧ parseTokens j = .ok t ∧
        accept t.1 t.2.1 t.2.2.1 t.2.2.2 = false) ∧
    (initSession accept login f = .ok (login, some (save_session login)) ↔
      load_session accept f = .ok none) ∧
    (∀ s, load_session accept f = .ok (some s) →
      initSession accept login f = .ok (s, none)) ∧
    (∀ e, load_session accept f = .error e →
      initSession accept login f = .error e) := by
  refine ⟨?_, ?_, ?_, ?_⟩
  · cases f with
    | absent => simp [load_session]
    | unreadable => simp [load_session]
    | corruptJson => simp [load_session]
    | parsed j =>
      simp only [load_session]
      cases hp : parseTokens j with
      | error e =>
        constructor
        · intro h; exact absurd h (by simp)
        · rintro (h | ⟨j', t', hj, hpt, _⟩)
          · exact absurd h (by simp)
          · cases hj; rw [hp] at hpt; exact absurd hpt (by simp)
      | ok t =>
        obtain ⟨tt, at_, rt, et⟩ := t
        dsimp only
        by_cases ha : accept tt at_ rt et
        · rw [if_pos ha]
          constructor
          · intro h; exact absurd h (by simp)
          · rintro (h | ⟨j', t', hj, hpt, hacc⟩)
            · exact absurd h (by simp)
            · cases hj
              rw [hp] at hpt
              simp only [Except.ok.injEq] at hpt
              subst hpt
              exact absurd ha (by simp [hacc])
        · rw [if_neg ha]
          constructor
          · intro _
            exact Or.inr ⟨j, (tt, at_, rt, et), rfl, hp, by simpa using ha⟩
          · intro _; rfl
  · rcases hl : load_session accept f with e | s
    · simp [initSession, hl]
    · cases s with
      | none => simp [initSession, hl]
      | some s => simp [initSession, hl]
  · intro s hl
    simp [initSession, hl]
  · intro e hl
    simp [initSession, hl]

/-- C1, witness: with the always-accepting vendor stub, an absent file
makes construction fall back to OAuth and save the session; a file holding
a saved session is loaded back with nothing written; a corrupted file
propagates its error. -/
theorem claim_C1_witness :
    initSession acceptAll login0 .absent = .ok (login0, some (save_session login0)) ∧
    initSession acceptAll login0 (.parsed (save_session sess0)) = .ok (sess0, none) ∧
    initSession acceptAll login0 .unreadable = .error .ioError := by
  refine ⟨?_, ?_, ?_⟩
  · exact (claim_C1 acceptAll login0 .absent).2.1.mpr
      ((claim_C1 acceptAll login0 .absent).1.mpr (Or.inl rfl))
  · exact (claim_C1 acceptAll login0 (.parsed (save_session sess0))).2.2.1 sess0 (by rfl)
  · exact (claim_C1 acceptAll login0 .unreadable).2.2.2 .ioError rfl

/-- C3: the claim says `track_popularity(track_id)` fetches the track with
that Tidal ID; the code instead passes the Python builtin function `id` to
`self.session.track` (`self.session.track(id)`), never using `track_id`.
On a session where track 12345 exists (reachable by a genuine by-id
lookup) and the bogus argument raises, the function returns `None` even
though the claimed behaviour would return popularity 80; moreover its
result never depends on `track_id` at all. -/
theorem claim_C3_code_bug :
    sessFail.track (.byId 12345) = .ok track80 ∧
    track80.popularity = 80 ∧
    track_popularity sessFail 12345 = none ∧
    (∀ (sess : PySession) (t1 t2 : Nat),
      track_popularity sess t1 = track_popularity sess t2) :=
  ⟨rfl, rfl, rfl, fun _ _ _ => rfl⟩

/-- C5: when `tidalsync` runs without `--force`, an item whose
`tidal_track_popularity` field is present, and an item without a
`tidal_track_id` attribute, come out untouched, with neither
`item.store()` nor `item.try_write()` executed. -/
theorem claim_C5 (sess : PySession) (now : ℚ) (items : List Item)
    (write : Bool) (i : Nat) (item : Item)
    (hi : items[i]? = some item)
    (hskip : item.tidal_track_popularity.isSome = true ∨
      item.tidal_track_id = none) :
    (tidalsync sess now items write false)[i]? = some (item, false, false) := by
  unfold tidalsync
  rw [List.getElem?_map, hi, Option.map_some']
  rcases hskip with hpop | hid
  · simp [hpop]
  · by_cases hpop : item.tidal_track_popularity.isSome
    · simp [hpop]
    · simp [hpop, hid]

/-- C5, witness: a concrete two-item sync in which the item with
popularity already present and the item without a track id are returned
unchanged and unstored. -/
theorem claim_C5_witness :
    (tidalsync sessOk 1234 [itemDone, itemNoId] true false)[0]? =
      some (itemDone, false, false) ∧
    (tidalsync sessOk 1234 [itemDone, itemNoId] true false)[1]? =
      some (itemNoId, false, false) :=
  ⟨claim_C5 sessOk 1234 [itemDone, itemNoId] true 0 itemDone rfl (Or.inl rfl),
   claim_C5 sessOk 1234 [itemDone, itemNoId] true 1 itemNoId rfl (Or.inr rfl)⟩

/-- C6: `save_session` writes a flat JSON object with exactly the keys
`token_type`, `access_token`, `refresh_token`, `expiry_time` (the expiry
as a POSIX timestamp), and `load_session` on that file hands the vendor
library back exactly the same four token values, the expiry surviving the
`timestamp`/`fromtimestamp` round trip. -/
theorem claim_C6 (s : OAuthSession) :
    (save_session s).map Prod.fst =
      ["token_type", "access_token", "refresh_token", "expiry_time"] ∧
    parseTokens (save_session s) =
      .ok (s.token_type, s.access_token, s.refresh_token,
        Datetime.fromtimestamp s.expiry_time.timestamp) ∧
    Datetime.fromtimestamp s.expiry_time.timestamp = s.expiry_time ∧
    (∀ accept, load_session accept (.parsed (save_session s)) =
      if accept s.token_type s.access_token s.refresh_token s.expiry_time
      then .ok (some s) else .ok none) := by
  refine ⟨rfl, rfl, rfl, fun accept => ?_⟩
  have hred : load_session accept (.parsed (save_session s)) =
      if accept s.token_type s.access_token s.refresh_token s.expiry_time
      then .ok (some ⟨s.token_type, s.access_token, s.refresh_token,
        s.expiry_time⟩)
      else .ok none := rfl
  rw [hred]

/-- C10: every item `tidalsync` updates is stored with exactly two fields
changed: `tidal_track_popularity` becomes the fetched value and the field
written is `spotify_updated` (sic) set to the current time — the declared
`tidal_updated` field, like every other field, is untouched. -/
theorem claim_C10 (sess : PySession) (now : ℚ) (items : List Item)
    (write force : Bool) (i : Nat) (item : Item) (tid : Nat)
    (hi : items[i]? = some item)
    (hforce : (!force && item.tidal_track_popularity.isSome) = false)
    (htid : item.tidal_track_id = some tid) :
    ∃ upd,
      (tidalsync sess now items write force)[i]? = some (upd, true, write) ∧
      upd.tidal_track_popularity = some (track_popularity sess tid) ∧
      upd.spotify_updated = some now ∧
      upd.tidal_updated = item.tidal_updated ∧
      upd.tidal_track_id = item.tidal_track_id ∧
      upd.rest = item.rest := by
  refine ⟨{ item with
            tidal_track_popularity := some (track_popularity sess tid)
            spotify_updated := some now }, ?_, rfl, rfl, rfl, rfl, rfl⟩
  unfold tidalsync
  rw [List.getElem?_map, hi, Option.map_some']
  simp [hforce, htid]

/-- C8: in `get_albums`/`get_tracks` the local `data` is assigned only
inside the `try` block, so whenever the search call raises, the
`data.get('top_hit')` line raises `UnboundLocalError` (a `NameError`)
instead of returning `[]`; `candidates` and `item_candidates` return `[]`
only through their own outer exception handlers. -/
theorem claim_C8 (now : ℚ) (w : Char → Bool) (sess : PySession)
    (query artist release title : List Char) (va_likely : Bool) :
    (∀ e, sess.searchAlbums (normalizeAlbumQuery w query) = .error e →
      get_albums now w sess query = .error .unboundLocal) ∧
    (∀ e, sess.searchTracks (normalizeTrackQuery w query) = .error e →
      get_tracks now w sess query = .error .unboundLocal) ∧
    (∀ e, get_albums now w sess
        (if va_likely then release else release ++ ' ' :: artist) = .error e →
      candidates now w sess artist release va_likely = []) ∧
    (∀ e, get_tracks now w sess (title ++ ' ' :: artist) = .error e →
      item_candidates now w sess artist title = []) := by
  refine ⟨fun e h => ?_, fun e h => ?_, fun e h => ?_, fun e h => ?_⟩
  · simp only [get_albums, h]
  · simp only [get_tracks, h]
  · simp only [candidates, h]
  · simp only [item_candidates, h]

/-- C8, witness: on a session whose search requests fail, `get_albums`
and `get_tracks` raise (the unbound-local error) instead of returning a
list, while `candidates` and `item_candidates` swallow that into `[]`. -/
theorem claim_C8_witness :
    get_albums 0 asciiWord sessFail ['a'] = .error .unboundLocal ∧
    get_tracks 0 asciiWord sessFail ['a'] = .error .unboundLocal ∧
    candidates 0 asciiWord sessFail ['b'] ['a'] false = [] ∧
    item_candidates 0 asciiWord sessFail ['b'] ['a'] = [] :=
  ⟨(claim_C8 0 asciiWord sessFail ['a'] ['b'] ['a'] ['a'] false).1 .other rfl,
   (claim_C8 0 asciiWord sessFail ['a'] ['b'] ['a'] ['a'] false).2.1 .other rfl,
   (claim_C8 0 asciiWord sessFail ['a'] ['b'] ['a'] ['a'] false).2.2.1
     .unboundLocal rfl,
   (claim_C8 0 asciiWord sessFail ['a'] ['b'] ['a'] ['a'] false).2.2.2
     .unboundLocal rfl⟩

/-- C2: whenever `get_albums` returns normally, its list holds at most
one `AlbumInfo`: the album fetched for the id of the search response's
top hit, or none at all exactly when the response has no top hit;
`get_tracks` satisfies the same property for `TrackInfo`. -/
theorem claim_C2 (now : ℚ) (w : Char → Bool) (sess : PySession)
    (query : List Char) (al : List AlbumInfo) (tl : List TrackInfo) :
    (get_albums now w sess query = .ok al →
      al.length ≤ 1 ∧
      ∃ resp, sess.searchAlbums (normalizeAlbumQuery w query) = .ok resp ∧
        (al = [] ↔ resp.top_hit = none) ∧
        ∀ hitId, resp.top_hit = some hitId →
          ∃ ad info, sess.album hitId = .ok ad ∧
            get_album_info now sess ad = .ok info ∧ al = [info]) ∧
    (get_tracks now w sess query = .ok tl →
      tl.length ≤ 1 ∧
      ∃ resp, sess.searchTracks (normalizeTrackQuery w query) = .ok resp ∧
        (tl = [] ↔ resp.top_hit = none) ∧
        ∀ hitId, resp.top_hit = some hitId →
          ∃ sd, sess.track (.byId hitId) = .ok sd ∧
            tl = [_get_track now sd]) := by
  constructor
  · intro h
    unfold get_albums at h
    dsimp only at h
    rcases hs : sess.searchAlbums (normalizeAlbumQuery w query) with e | resp <;>
      rw [hs] at h <;> dsimp only at h
    · exact absurd h (by simp)
    · rcases ht : resp.top_hit with _ | hitId <;> rw [ht] at h <;> dsimp only at h
      · simp only [Except.ok.injEq] at h
        subst h
        exact ⟨by simp, resp, rfl, by simp [ht], fun hid hh => by
          rw [ht] at hh; exact absurd hh (by simp)⟩
      · simp only [bind, Except.bind] at h
        rcases ha : sess.album hitId with e | ad <;> rw [ha] at h <;>
          dsimp only at h
        · exact absurd h (by simp)
        · rcases hi : get_album_info now sess ad with e | info <;> rw [hi] at h <;>
            dsimp only at h
          · exact absurd h (by simp)
          · simp only [pure, Except.pure, Except.ok.injEq] at h
            subst h
            refine ⟨by simp, resp, rfl, by simp [ht], fun hid hh => ?_⟩
            rw [ht] at hh
            simp only [Option.some.injEq] at hh
            subst hh
            exact ⟨ad, info, ha, hi, rfl⟩
  · intro h
    unfold get_tracks at h
    dsimp only at h
    rcases hs : sess.searchTracks (normalizeTrackQuery w query) with e | resp <;>
      rw [hs] at h <;> dsimp only at h
    · exact absurd h (by simp)
    · rcases ht : resp.top_hit with _ | hitId <;> rw [ht] at h <;> dsimp only at h
      · simp only [Except.ok.injEq] at h
        subst h
        exact ⟨by simp, resp, rfl, by simp [ht], fun hid hh => by
          rw [ht] at hh; exact absurd hh (by simp)⟩
      · simp only [bind, Except.bind] at h
        rcases ha : sess.track (.byId hitId) with e | sd <;> rw [ha] at h <;>
          dsimp only at h
        · exact absurd h (by simp)
        · simp only [pure, Except.pure, Except.ok.injEq] at h
          subst h
          refine ⟨by simp, resp, rfl, by simp [ht], fun hid hh => ?_⟩
          rw [ht] at hh
          simp only [Option.some.injEq] at hh
          subst hh
          exact ⟨sd, ha, rfl⟩

/-- C2, witness: on a session whose requests succeed with a top hit,
`get_albums` returns exactly the top hit's album and `get_tracks` exactly
the top hit's track. -/
theorem claim_C2_witness :
    get_albums 0 asciiWord sessOk "An Album Artist".toList = .ok [info0] ∧
    ([info0] : List AlbumInfo).length ≤ 1 ∧
    get_tracks 0 asciiWord sessOk "Song Artist".toList =
      .ok [_get_track 0 track80] ∧
    ([_get_track 0 track80] : List TrackInfo).length ≤ 1 :=
  ⟨rfl,
   ((claim_C2 0 asciiWord sessOk "An Album Artist".toList [info0] []).1 rfl).1,
   rfl,
   ((claim_C2 0 asciiWord sessOk "Song Artist".toList []
       [_get_track 0 track80]).2 rfl).1⟩

/-- C7: the `AlbumInfo` produced by `get_album_info` carries the album's
release date decomposed into `year`/`month`/`day` when `release_date` is
present, and `None` in all three fields when it is absent. -/
theorem claim_C7 (now : ℚ) (sess : PySession) (item : AlbumObj)
    (info : AlbumInfo) (h : get_album_info now sess item = .ok info) :
    (∀ rd, item.release_date = some rd →
      info.year = some rd.year ∧ info.month = some rd.month ∧
        info.day = some rd.day) ∧
    (item.release_date = none →
      info.year = none ∧ info.month = none ∧ info.day = none) := by
  unfold get_album_info at h
  dsimp only at h
  simp only [bind, Except.bind] at h
  rcases ha : sess.album item.id with e | a2 <;> rw [ha] at h <;> dsimp only at h
  · exact absurd h (by simp)
  · rcases ht : a2.tracksResult with e | all <;> rw [ht] at h <;> dsimp only at h
    · exact absurd h (by simp)
    · rcases hm : pyMaxOpt (dictKeys
          ((albumTracks1 now all).map (fun t => t.medium))) with e | m <;>
        rw [hm] at h <;> dsimp only at h
      · exact absurd h (by simp)
      · simp only [pure, Except.pure, Except.ok.injEq] at h
        subst h
        constructor
        · intro rd hrd
          dsimp only
          rw [hrd]
          exact ⟨rfl, rfl, rfl⟩
        · intro hrd
          dsimp only
          rw [hrd]
          exact ⟨rfl, rfl, rfl⟩

/-- C7, witness: the concrete album released 2020-05-17 maps to an
`AlbumInfo` with `year = 2020`, `month = 5`, `day = 17`. -/
theorem claim_C7_witness :
    info0.year = some 2020 ∧ info0.month = some 5 ∧ info0.day = some 17 :=
  (claim_C7 0 sessOk albumObj0 info0 rfl).1 rd0 rfl

theorem albumTracks1_length (now : ℚ) (all : List Track) :
    (albumTracks1 now all).length = all.length := by
  simp [albumTracks1, List.enum_length]

theorem albumTracks1_index (now : ℚ) (all : List Track) (i : Nat)
    (hi : i < (albumTracks1 now all).length) :
    ((albumTracks1 now all).get ⟨i, hi⟩).index = some (i + 1) := by
  unfold albumTracks1
  simp [List.get_eq_getElem, List.getElem_map, List.getElem_enum]

/-- C9: in every `AlbumInfo` that `get_album_info` returns, each track's
`index` is its 1-based position in the listing, each track's
`medium_total` counts the tracks sharing its `medium`, and `mediums`
is Python `max` of the distinct mediums — which presupposes at least one
track: on an album whose track listing is empty, `max(...keys())` raises
`ValueError`, so the mapping fails. -/
theorem claim_C9 (now : ℚ) (sess : PySession) (item : AlbumObj)
    (info : AlbumInfo) :
    (get_album_info now sess item = .ok info →
      (∀ i (hi : i < info.tracks.length),
        (info.tracks.get ⟨i, hi⟩).index = some (i + 1) ∧
        (info.tracks.get ⟨i, hi⟩).medium_total =
          some ((info.tracks.filter
            (fun u => u.medium = (info.tracks.get ⟨i, hi⟩).medium)).length)) ∧
      pyMaxOpt (dictKeys (info.tracks.map (fun t => t.medium))) =
        .ok info.mediums ∧
      info.tracks ≠ []) ∧
    (∀ a2, sess.album item.id = .ok a2 → a2.tracksResult = .ok [] →
      get_album_info now sess item = .error .valueError) := by
  constructor
  · intro h
    unfold get_album_info at h
    dsimp only at h
    simp only [bind, Except.bind] at h
    rcases ha : sess.album item.id with e | a2 <;> rw [ha] at h <;> dsimp only at h
    · exact absurd h (by simp)
    · rcases ht : a2.tracksResult with e | all <;> rw [ht] at h <;> dsimp only at h
      · exact absurd h (by simp)
      · rcases hm : pyMaxOpt (dictKeys
            ((albumTracks1 now all).map (fun t => t.medium))) with e | m <;>
          rw [hm] at h <;> dsimp only at h
        · exact absurd h (by simp)
        · simp only [pure, Except.pure, Except.ok.injEq] at h
          subst h
          dsimp only
          refine ⟨fun i hi => ?_, ?_, ?_⟩
          · have hi1 : i < (albumTracks1 now all).length := by
              simpa [albumTracksFinal] using hi
            constructor
            · show ((albumTracksFinal now all).get ⟨i, hi⟩).index = some (i + 1)
              unfold albumTracksFinal
              rw [List.get_eq_getElem, List.getElem_map]
              show ((albumTracks1 now all).get ⟨i, hi1⟩).index = some (i + 1)
              exact albumTracks1_index now all i hi1
            · show ((albumTracksFinal now all).get ⟨i, hi⟩).medium_total = _
              unfold albumTracksFinal
              rw [List.get_eq_getElem, List.getElem_map, List.filter_map]
              simp only [List.length_map]
              rfl
          · show pyMaxOpt (dictKeys
                ((albumTracksFinal now all).map (fun t => t.medium))) = .ok m
            unfold albumTracksFinal
            rw [List.map_map]
            exact hm
          · show albumTracksFinal now all ≠ []
            intro hnil
            have h1 : albumTracks1 now all = [] := by
              unfold albumTracksFinal at hnil
              exact List.map_eq_nil.mp hnil
            rw [h1] at hm
            exact absurd hm (by simp [dictKeys, pyMaxOpt])
  · intro a2 ha ht
    unfold get_album_info
    dsimp only
    simp only [bind, Except.bind]
    rw [ha]
    dsimp only
    rw [ht]
    rfl

/-- C9, witness: on the concrete two-track album, the first track has
index 1, its `medium_total` counts both tracks, `mediums` is the maximum
(here `None`, every track's medium being the beets default), the listing
is nonempty — and the same album with an empty track listing makes
`get_album_info` fail with the `ValueError` from `max()`. -/
theorem claim_C9_witness :
    (info0.tracks.get ⟨0, by decide⟩).index = some 1 ∧
    (info0.tracks.get ⟨0, by decide⟩).medium_total =
      some ((info0.tracks.filter
        (fun u => u.medium = (info0.tracks.get ⟨0, by decide⟩).medium)).length) ∧
    pyMaxOpt (dictKeys (info0.tracks.map (fun t => t.medium))) =
      .ok info0.mediums ∧
    info0.tracks ≠ [] ∧
    get_album_info 0 sessEmpty albumObjEmpty = .error .valueError :=
  ⟨(((claim_C9 0 sessOk albumObj0 info0).1 rfl).1 0 (by decide)).1,
   (((claim_C9 0 sessOk albumObj0 info0).1 rfl).1 0 (by decide)).2,
   ((claim_C9 0 sessOk albumObj0 info0).1 rfl).2.1,
   ((claim_C9 0 sessOk albumObj0 info0).1 rfl).2.2,
   (claim_C9 0 sessEmpty albumObjEmpty info0).2 albumObjEmpty rfl rfl⟩

theorem getLastD_of_ne_nil {α : Type} {l : List α} (h : l ≠ []) (d d' : α) :
    l.getLastD d = l.getLastD d' := by
  cases l with
  | nil => exact absurd rfl h
  | cons a l => rw [List.getLastD_cons, List.getLastD_cons]

theorem getLastD_append_right {α : Type} {l1 l2 : List α} (h : l2 ≠ [])
    (d : α) : (l1 ++ l2).getLastD d = l2.getLastD d := by
  induction l1 generalizing d with
  | nil => rfl
  | cons a l1 ih =>
    rw [List.cons_append, List.getLastD_cons, ih a]
    exact getLastD_of_ne_nil h a d

theorem takeWhile_append_all {p : Char → Bool} {l1 l2 : List Char}
    (h1 : ∀ c ∈ l1, p c = true)
    (h2 : ∀ d r2, l2 = d :: r2 → p d = false) :
    (l1 ++ l2).takeWhile p = l1 := by
  induction l1 with
  | nil =>
    cases l2 with
    | nil => rfl
    | cons d r2 =>
      simp only [List.nil_append]
      exact List.takeWhile_cons_of_neg (by simp [h2 d r2 rfl])
  | cons a l1 ih =>
    rw [List.cons_append,
      List.takeWhile_cons_of_pos (h1 a (List.mem_cons_self a l1)),
      ih (fun c hc => h1 c (List.mem_cons_of_mem a hc))]

theorem dropWhile_append_all {p : Char → Bool} {l1 l2 : List Char}
    (h1 : ∀ c ∈ l1, p c = true)
    (h2 : ∀ d r2, l2 = d :: r2 → p d = false) :
    (l1 ++ l2).dropWhile p = l2 := by
  induction l1 with
  | nil =>
    cases l2 with
    | nil => rfl
    | cons d r2 =>
      simp only [List.nil_append]
      exact List.dropWhile_cons_of_neg (by simp [h2 d r2 rfl])
  | cons a l1 ih =>
    rw [List.cons_append,
      List.dropWhile_cons_of_pos (h1 a (List.mem_cons_self a l1)),
      ih (fun c hc => h1 c (List.mem_cons_of_mem a hc))]

theorem digit_not_whitespace {c : Char} (h : c.isDigit = true) :
    c.isWhitespace = false := by
  by_cases hw : c.isWhitespace = true
  · exfalso
    have hc : c = ' ' ∨ c = '\t' ∨ c = '\r' ∨ c = '\n' := by
      simpa [Char.isWhitespace, or_assoc] using hw
    rcases hc with hc | hc | hc | hc <;> subst hc <;> exact absurd h (by decide)
  · simpa using hw

theorem collapseGo_rel (w : Char → Bool) :
    ∀ (fuel : Nat) (q : List Char), q.length ≤ fuel →
      CollapseRel w q (collapseGo w fuel q) := by
  intro fuel
  induction fuel with
  | zero =>
    intro q hq
    have hq0 : q = [] := List.eq_nil_of_length_eq_zero (Nat.le_zero.mp hq)
    subst hq0
    exact .nil
  | succ n ih =>
    intro q hq
    cases q with
    | nil => exact .nil
    | cons c rest =>
      simp only [collapseGo]
      by_cases hc : w c
      · rw [if_pos hc]
        exact .word hc (ih rest (Nat.le_of_succ_le_succ (by simpa using hq)))
      · rw [if_neg hc]
        have hc' : w c = false := by simpa using hc
        have hsplit : (c :: rest.takeWhile (fun x => !(w x))) ++
            rest.dropWhile (fun x => !(w x)) = c :: rest := by
          rw [List.cons_append, List.takeWhile_append_dropWhile]
        have hrun : CollapseRel w
            ((c :: rest.takeWhile (fun x => !(w x))) ++
              rest.dropWhile (fun x => !(w x)))
            (' ' :: collapseGo w n (rest.dropWhile (fun x => !(w x)))) := by
          refine .run (by simp) ?_ ?_ ?_
          · intro x hx
            rcases List.mem_cons.mp hx with hx | hx
            · subst hx; exact hc'
            · have := List.mem_takeWhile_imp hx
              simpa using this
          · intro c2 q2 heq
            have hh := List.head?_dropWhile_not (fun x => !(w x)) rest
            rw [heq] at hh
            simpa using hh
          · refine ih _ ?_
            have h1 := dropWhile_length_le (fun x => !(w x)) rest
            have h2 : rest.length + 1 ≤ n + 1 := by simpa using hq
            omega
        rw [hsplit] at hrun
        exact hrun

theorem collapseNonWord_rel (w : Char → Bool) (q : List Char) :
    CollapseRel w q (collapseNonWord w q) :=
  collapseGo_rel w q.length q le_rfl

theorem afterSpacesDigits_sound {t : List Char} {lastc : Char}
    {rest : List Char} (h : afterSpacesDigits t = some (lastc, rest)) :
    ∃ sp ds, t = sp ++ ds ++ rest ∧ (∀ c ∈ sp, c.isWhitespace = true) ∧
      ds ≠ [] ∧ (∀ c ∈ ds, c.isDigit = true) ∧
      (∀ d r2, rest = d :: r2 → d.isDigit = false) ∧
      lastc = ds.getLastD ' ' := by
  unfold afterSpacesDigits at h
  split at h
  · exact absurd h (by simp)
  · rename_i x xs hd
    split at h
    case isTrue hx =>
      simp only [Option.some.injEq, Prod.mk.injEq] at h
      obtain ⟨hlast, hrest⟩ := h
      refine ⟨t.takeWhile Char.isWhitespace, x :: xs.takeWhile Char.isDigit,
        ?_, ?_, ?_, ?_, ?_, ?_⟩
      · subst hrest
        rw [List.append_assoc, List.cons_append,
          List.takeWhile_append_dropWhile]
        conv_lhs => rw [← List.takeWhile_append_dropWhile
          (p := Char.isWhitespace) (l := t), hd]
      · intro c hc; exact List.mem_takeWhile_imp hc
      · simp
      · intro c hc
        rcases List.mem_cons.mp hc with hc | hc
        · subst hc; exact hx
        · exact List.mem_takeWhile_imp hc
      · intro d r2 hr
        subst hrest
        have hh := List.head?_dropWhile_not Char.isDigit xs
        rw [hr] at hh
        simpa using hh
      · rw [← hlast, List.takeWhile_cons_of_pos hx]
        exact getLastD_of_ne_nil (by simp) x ' '
    case isFalse => exact absurd h (by simp)

theorem matchCD_sound {l : List Char} {lastc : Char} {rest : List Char}
    (h : matchCD l = some (lastc, rest)) :
    ∃ s, TokAt l s rest ∧ lastc = s.getLastD ' ' := by
  unfold matchCD at h
  split at h
  · rename_i c d tl
    split at h
    case isTrue hcd =>
      obtain ⟨sp, ds, htl, hsp, hds0, hds, hmax, hlast⟩ :=
        afterSpacesDigits_sound h
      refine ⟨[c, d] ++ sp ++ ds,
        ⟨?_, ⟨[c, d], sp, ds, rfl,
          Or.inl ⟨c, d, rfl, hcd.1, hcd.2⟩, hsp, hds0, hds⟩, hmax⟩, ?_⟩
      · rw [htl]; simp
      · rw [hlast, getLastD_append_right hds0 ' ']
    case isFalse => exact absurd h (by simp)
  · exact absurd h (by simp)

theorem matchDisc_sound {l : List Char} {lastc : Char} {rest : List Char}
    (h : matchDisc l = some (lastc, rest)) :
    ∃ s, TokAt l s rest ∧ lastc = s.getLastD ' ' := by
  unfold matchDisc at h
  split at h
  · rename_i a b c d tl
    split at h
    case isTrue habcd =>
      obtain ⟨sp, ds, htl, hsp, hds0, hds, hmax, hlast⟩ :=
        afterSpacesDigits_sound h
      refine ⟨[a, b, c, d] ++ sp ++ ds,
        ⟨?_, ⟨[a, b, c, d], sp, ds, rfl,
          Or.inr ⟨a, b, c, d, rfl, habcd.1, habcd.2.1, habcd.2.2.1,
            habcd.2.2.2⟩, hsp, hds0, hds⟩, hmax⟩, ?_⟩
      · rw [htl]; simp
      · rw [hlast, getLastD_append_right hds0 ' ']
    case isFalse => exact absurd h (by simp)
  · exact absurd h (by simp)

theorem matchToken_sound {l : List Char} {lastc : Char} {rest : List Char}
    (h : matchToken l = some (lastc, rest)) :
    ∃ s, TokAt l s rest ∧ lastc = s.getLastD ' ' := by
  unfold matchToken at h
  split at h
  · rename_i r hcd
    cases h
    exact matchCD_sound hcd
  · exact matchDisc_sound h

theorem afterSpacesDigits_complete {sp ds rest : List Char}
    (hsp : ∀ c ∈ sp, c.isWhitespace = true) (hds0 : ds ≠ [])
    (hds : ∀ c ∈ ds, c.isDigit = true)
    (hmax : ∀ d r2, rest = d :: r2 → d.isDigit = false) :
    afterSpacesDigits (sp ++ (ds ++ rest)) = some (ds.getLastD ' ', rest) := by
  obtain ⟨d0, ds2, rfl⟩ : ∃ d0 ds2, ds = d0 :: ds2 := by
    cases ds with
    | nil => exact absurd rfl hds0
    | cons d0 ds2 => exact ⟨d0, ds2, rfl⟩
  have hd0 : d0.isDigit = true := hds d0 (List.mem_cons_self d0 ds2)
  have hhead : ∀ d r2, ((d0 :: ds2) ++ rest : List Char) = d :: r2 →
      d.isWhitespace = false := by
    intro d r2 hr
    rw [List.cons_append] at hr
    injection hr with h1 _
    subst h1
    exact digit_not_whitespace hd0
  have hdrop : (sp ++ ((d0 :: ds2) ++ rest)).dropWhile Char.isWhitespace =
      d0 :: (ds2 ++ rest) := by
    rw [dropWhile_append_all hsp hhead, List.cons_append]
  unfold afterSpacesDigits
  rw [hdrop]
  dsimp only
  rw [if_pos hd0, List.takeWhile_cons_of_pos hd0,
    takeWhile_append_all (fun c hc => hds c (List.mem_cons_of_mem d0 hc)) hmax,
    dropWhile_append_all (fun c hc => hds c (List.mem_cons_of_mem d0 hc)) hmax]
  rw [getLastD_of_ne_nil (l := d0 :: ds2) (by simp) d0 ' ']

theorem matchToken_complete {l s rest : List Char} (h : TokAt l s rest) :
    matchToken l = some (s.getLastD ' ', rest) := by
  obtain ⟨hl, ⟨pre, sp, ds, hs, hpre, hsp, hds0, hds⟩, hmax⟩ := h
  rcases hpre with ⟨c, d, hcd, hc, hd⟩ | ⟨a, b, c, d, habcd, ha, hb, hcc, hdd⟩
  · subst hcd
    subst hs
    subst hl
    have hshape : (([c, d] ++ sp ++ ds) ++ rest : List Char) =
        c :: d :: (sp ++ (ds ++ rest)) := by simp
    rw [hshape]
    unfold matchToken matchCD
    dsimp only
    rw [if_pos ⟨hc, hd⟩, afterSpacesDigits_complete hsp hds0 hds hmax]
    dsimp only
    rw [getLastD_append_right hds0 ' ']
  · subst habcd
    subst hs
    subst hl
    have hshape : (([a, b, c, d] ++ sp ++ ds) ++ rest : List Char) =
        a :: b :: (c :: d :: (sp ++ (ds ++ rest))) := by simp
    have hne : ¬(a.toLower = 'c' ∧ b.toLower = 'd') := by
      intro hcontra
      rw [ha] at hcontra
      exact absurd hcontra.1 (by decide)
    have hcdnone :
        matchCD (a :: b :: (c :: d :: (sp ++ (ds ++ rest)))) = none := by
      unfold matchCD
      dsimp only
      rw [if_neg hne]
    have hdisc : matchDisc (a :: b :: (c :: d :: (sp ++ (ds ++ rest)))) =
        some (ds.getLastD ' ', rest) := by
      unfold matchDisc
      dsimp only
      rw [if_pos ⟨ha, hb, hcc, hdd⟩,
        afterSpacesDigits_complete hsp hds0 hds hmax]
    rw [hshape]
    unfold matchToken
    simp only [hcdnone, hdisc, getLastD_append_right hds0 ' ']

theorem stripGo_rel (w : Char → Bool) :
    ∀ (fuel : Nat) (b : Bool) (q : List Char), q.length ≤ fuel →
      StripRel w b q (stripGo w fuel b q) := by
  intro fuel
  induction fuel with
  | zero =>
    intro b q hq
    have hq0 : q = [] := List.eq_nil_of_length_eq_zero (Nat.le_zero.mp hq)
    subst hq0
    exact .nil b
  | succ n ih =>
    intro b q hq
    cases q with
    | nil => exact .nil b
    | cons c rest =>
      simp only [stripGo]
      by_cases hb : (w c != b) = true
      · rw [if_pos hb]
        cases hm : matchToken (c :: rest) with
        | some pr =>
          obtain ⟨lastc, rest2⟩ := pr
          dsimp only
          obtain ⟨s, htok, hlast⟩ := matchToken_sound hm
          subst hlast
          refine .del ⟨c, rest, rfl, hb⟩ htok
            (ih (w (s.getLastD ' ')) rest2 ?_)
          have h1 := matchToken_length hm
          simp only [List.length_cons] at h1 hq
          omega
        | none =>
          dsimp only
          refine .keep ?_ (ih (w c) rest ?_)
          · intro hmh
            obtain ⟨_, s, rest2, htok⟩ := hmh
            exact absurd (matchToken_complete htok) (by rw [hm]; simp)
          · simp only [List.length_cons] at hq; omega
      · rw [if_neg hb]
        refine .keep ?_ (ih (w c) rest ?_)
        · intro hmh
          obtain ⟨⟨c2, t2, heq, hbnd⟩, _⟩ := hmh
          injection heq with h1 h2
          subst h1
          exact absurd hbnd hb
        · simp only [List.length_cons] at hq; omega

theorem stripMedium_rel (w : Char → Bool) (l : List Char) :
    StripRel w false l (stripMedium w l) :=
  stripGo_rel w l.length false l le_rfl

/-- C4: `get_albums` and `get_tracks` apply one identical normalization
to the free-text query before it reaches the search call: first every
maximal run of non-word characters (word class abstracted as `w`) becomes
a single space (`CollapseRel`), then every `CD`/`disc` token —
case-insensitive, at a word boundary, optional whitespace, then digits —
is deleted (`StripRel`); each search function probes the session only at
the normalized query. -/
theorem claim_C4 (w : Char → Bool) (q : List Char) :
    normalizeAlbumQuery w q = stripMedium w (collapseNonWord w q) ∧
    normalizeTrackQuery w q = normalizeAlbumQuery w q ∧
    CollapseRel w q (collapseNonWord w q) ∧
    StripRel w false (collapseNonWord w q) (normalizeAlbumQuery w q) ∧
    (∀ (now : ℚ) (sess : PySession) f g,
      f (normalizeAlbumQuery w q) = g (normalizeAlbumQuery w q) →
      get_albums now w { sess with searchAlbums := f } q =
        get_albums now w { sess with searchAlbums := g } q) ∧
    (∀ (now : ℚ) (sess : PySession) f g,
      f (normalizeTrackQuery w q) = g (normalizeTrackQuery w q) →
      get_tracks now w { sess with searchTracks := f } q =
        get_tracks now w { sess with searchTracks := g } q) := by
  refine ⟨rfl, rfl, collapseNonWord_rel w q,
    stripMedium_rel w (collapseNonWord w q), ?_, ?_⟩
  · intro now sess f g hfg
    unfold get_albums
    dsimp only
    rw [hfg]
    have hai : ∀ ad, get_album_info now { sess with searchAlbums := f } ad =
        get_album_info now { sess with searchAlbums := g } ad := fun _ => rfl
    simp only [hai]
  · intro now sess f g hfg
    unfold get_tracks
    dsimp only
    rw [hfg]

/-- C4, witness: the two spec relations instantiated on a concrete query,
and two search stubs that agree on the normalized query (only) making
`get_albums` behave identically. -/
theorem claim_C4_witness :
    CollapseRel asciiWord "Greatest Hits CD1".toList
      (collapseNonWord asciiWord "Greatest Hits CD1".toList) ∧
    StripRel asciiWord false
      (collapseNonWord asciiWord "Greatest Hits CD1".toList)
      (normalizeAlbumQuery asciiWord "Greatest Hits CD1".toList) ∧
    get_albums 0 asciiWord { sessOk with searchAlbums := fConst }
        "Greatest Hits CD1".toList =
      get_albums 0 asciiWord { sessOk with searchAlbums := gIf }
        "Greatest Hits CD1".toList :=
  ⟨(claim_C4 asciiWord "Greatest Hits CD1".toList).2.2.1,
   (claim_C4 asciiWord "Greatest Hits CD1".toList).2.2.2.1,
   (claim_C4 asciiWord "Greatest Hits CD1".toList).2.2.2.2.1 0 sessOk
     fConst gIf (by simp [fConst, gIf])⟩

/-- C10, witness: syncing a concrete pending item stores it with the
fetched popularity (here `none`: the `session.track(id)` bug makes the
lookup raise), `spotify_updated` set to the current time, and
`tidal_updated` and all remaining fields unchanged. -/
theorem claim_C10_witness :
    ∃ upd,
      (tidalsync sessOk 1234 [itemTodo] true false)[0]? =
        some (upd, true, true) ∧
      upd.tidal_track_popularity = some (track_popularity sessOk 12345) ∧
      upd.spotify_updated = some 1234 ∧
      upd.tidal_updated = itemTodo.tidal_updated ∧
      upd.tidal_track_id = itemTodo.tidal_track_id ∧
      upd.rest = itemTodo.rest :=
  claim_C10 sessOk 1234 [itemTodo] true false 0 itemTodo 12345 rfl rfl rfl

end BeetsTidal
